import Mathlib

/-!
Verification of the lil-face deformation / displacement-field /
multi-resolution engine.

The JavaScript sources are embedded shallowly:

* JS floating-point arithmetic is idealised as exact arithmetic.
  Functions whose source uses only field operations, comparisons and
  rounding are modelled over `ℚ` (computable, so concrete runs can be
  checked by `decide`); functions whose source calls `Math.exp` or
  `Math.sqrt` are modelled over `ℝ`.
* Dense buffers (`Float32Array` contents, `ImageData.data`) are modelled
  as total functions from flat row-major indices, together with explicit
  width/height parameters, exactly mirroring the flat JS arrays.
* A `Uint8ClampedArray` store clamps to `[0, 255]` and rounds ties to
  even; this is modelled explicitly below.
-/

open Filter

/-- JS `Math.round`: round half toward positive infinity. -/
def jsRound (q : ℚ) : ℤ := ⌊q + 1/2⌋

/-- Round to nearest integer with ties to even, over `ℚ`: the rounding
performed when a (clamped, in-range) value is stored into a
`Uint8ClampedArray` slot. -/
def roundHalfEvenQ (v : ℚ) : ℤ :=
  let n := ⌊v⌋
  let f := v - n
  if f < 1/2 then n else if 1/2 < f then n + 1 else if n % 2 = 0 then n else n + 1

/-- Storing a value into a `Uint8ClampedArray` slot (`ℚ` version):
clamp to `[0, 255]`, round half to even. -/
def u8storeQ (v : ℚ) : ℚ :=
  if v ≤ 0 then 0 else if 255 ≤ v then 255 else (roundHalfEvenQ v : ℚ)

/-- Round to nearest integer with ties to even, over `ℝ`. -/
noncomputable def roundHalfEvenR (v : ℝ) : ℤ :=
  let n := ⌊v⌋
  let f := v - n
  if f < 1/2 then n else if 1/2 < f then n + 1 else if n % 2 = 0 then n else n + 1

/-- Storing a value into a `Uint8ClampedArray` slot (`ℝ` version). -/
noncomputable def u8storeR (v : ℝ) : ℝ :=
  if v ≤ 0 then 0 else if 255 ≤ v then 255 else (roundHalfEvenR v : ℝ)

/-- x pixel coordinate of a flat row-major buffer index. -/
def pxOf (width idx : ℕ) : ℤ := (idx % width : ℕ)

/-- y pixel coordinate of a flat row-major buffer index. -/
def pyOf (width idx : ℕ) : ℤ := (idx / width : ℕ)

/-! ### Liquify / warp tool: displacement-field operations (liquify module)

`addLiquifyStroke` mutates the two dense grids in a double loop over the
clamped bounding box of the brush; since the loop writes each flat index
at most once, it is modelled as a pointwise function on the pair of
grids.  `Math.exp` / `Math.sqrt` force this model over `ℝ`. -/

/-- The five brush modes of the liquify tool. -/
inductive LiquifyMode | push | pull | restore | expand | shrink
  deriving DecidableEq

/-- One cell update of `addLiquifyStroke`: the `switch (mode)` body.
`w` is the Gaussian weight already multiplied by `strength / 100`,
`d2` the squared distance of the cell's pixel to the brush centre.
The source computes `dist = Math.sqrt(d2) || 1`, i.e. a zero square
root is replaced by 1. -/
noncomputable def strokeCellUpdate (mode : LiquifyMode) (cx cy dragX dragY radius w : ℝ)
    (px py : ℤ) (d2 oldDx oldDy : ℝ) : ℝ × ℝ :=
  match mode with
  | .push => (oldDx + dragX * w, oldDy + dragY * w)
  | .pull =>
      let dist := if Real.sqrt d2 = 0 then 1 else Real.sqrt d2
      let nx := (cx - (px : ℝ)) / dist
      let ny := (cy - (py : ℝ)) / dist
      (oldDx + nx * radius * 0.08 * w, oldDy + ny * radius * 0.08 * w)
  | .expand =>
      let dist := if Real.sqrt d2 = 0 then 1 else Real.sqrt d2
      let nx := ((px : ℝ) - cx) / dist
      let ny := ((py : ℝ) - cy) / dist
      (oldDx + nx * radius * 0.08 * w, oldDy + ny * radius * 0.08 * w)
  | .shrink =>
      let dist := if Real.sqrt d2 = 0 then 1 else Real.sqrt d2
      let nx := (cx - (px : ℝ)) / dist
      let ny := (cy - (py : ℝ)) / dist
      (oldDx + nx * radius * 0.08 * w, oldDy + ny * radius * 0.08 * w)
  | .restore => (oldDx * (1 - w), oldDy * (1 - w))

open Classical in
/-- `addLiquifyStroke` from the liquify module: add a warp stroke to the
displacement field.  `cx, cy` is the brush centre, `dx, dy` the drag delta
(push mode only).  The double loop over
`[max 0 ⌊cx-radius⌋, min (width-1) ⌈cx+radius⌉] ×
 [max 0 ⌊cy-radius⌋, min (height-1) ⌈cy+radius⌉]`,
skipping cells with `d2 ≥ radius²`, is rendered pointwise. -/
noncomputable def addLiquifyStroke (dxF dyF : ℕ → ℝ) (width height : ℕ)
    (cx cy dx dy radius strength : ℝ) (mode : LiquifyMode) : (ℕ → ℝ) × (ℕ → ℝ) :=
  let r2 := radius * radius
  let sigma2 := (radius / 2.5) ^ 2
  let s := strength / 100
  let x0 : ℤ := max 0 ⌊cx - radius⌋
  let x1 : ℤ := min ((width : ℤ) - 1) ⌈cx + radius⌉
  let y0 : ℤ := max 0 ⌊cy - radius⌋
  let y1 : ℤ := min ((height : ℤ) - 1) ⌈cy + radius⌉
  (fun idx =>
    let px := pxOf width idx
    let py := pyOf width idx
    let d2 := ((px : ℝ) - cx) ^ 2 + ((py : ℝ) - cy) ^ 2
    if x0 ≤ px ∧ px ≤ x1 ∧ y0 ≤ py ∧ py ≤ y1 ∧ d2 < r2 then
      (strokeCellUpdate mode cx cy dx dy radius (Real.exp (-d2 / (2 * sigma2)) * s)
        px py d2 (dxF idx) (dyF idx)).1
    else dxF idx,
   fun idx =>
    let px := pxOf width idx
    let py := pyOf width idx
    let d2 := ((px : ℝ) - cx) ^ 2 + ((py : ℝ) - cy) ^ 2
    if x0 ≤ px ∧ px ≤ x1 ∧ y0 ≤ py ∧ py ≤ y1 ∧ d2 < r2 then
      (strokeCellUpdate mode cx cy dx dy radius (Real.exp (-d2 / (2 * sigma2)) * s)
        px py d2 (dxF idx) (dyF idx)).2
    else dyF idx)

open Classical in
/-- The effective per-cell weight a stroke applies: the Gaussian brush
weight `exp(-d2/(2·(radius/2.5)²)) · strength/100` for cells the stroke
loop visits and that lie strictly inside the brush radius, and `0` for
every other cell (which the stroke leaves untouched). -/
noncomputable def strokeWeight (width height : ℕ) (cx cy radius strength : ℝ)
    (idx : ℕ) : ℝ :=
  let r2 := radius * radius
  let sigma2 := (radius / 2.5) ^ 2
  let s := strength / 100
  let x0 : ℤ := max 0 ⌊cx - radius⌋
  let x1 : ℤ := min ((width : ℤ) - 1) ⌈cx + radius⌉
  let y0 : ℤ := max 0 ⌊cy - radius⌋
  let y1 : ℤ := min ((height : ℤ) - 1) ⌈cy + radius⌉
  let px := pxOf width idx
  let py := pyOf width idx
  let d2 := ((px : ℝ) - cx) ^ 2 + ((py : ℝ) - cy) ^ 2
  if x0 ≤ px ∧ px ≤ x1 ∧ y0 ≤ py ∧ py ≤ y1 ∧ d2 < r2 then
    Real.exp (-d2 / (2 * sigma2)) * s
  else 0

/-- One application of a `restore`-mode stroke, as a transformer on the
pair of field grids (for reasoning about repeated application). -/
noncomputable def restoreIter (width height : ℕ) (cx cy dx dy radius strength : ℝ)
    (p : (ℕ → ℝ) × (ℕ → ℝ)) : (ℕ → ℝ) × (ℕ → ℝ) :=
  addLiquifyStroke p.1 p.2 width height cx cy dx dy radius strength .restore

/-! ### Sparse presence checks and displacement-field application

The render pipelines guard the mask and liquify stages with a cheap
sparse scan (`for (i = 0; i < len; i += step)`) before applying the
stage.  `applyLiquifyInto` reads displacement directly from the dense
grids and inverse-samples the source bilinearly; it uses no
transcendental functions, so it is modelled over `ℚ`. -/

/-- The sparse presence scan `for (i = 0; i < len; i += step) if (p buf[i]) ...`:
true iff some sampled slot satisfies `p`.  The sampled slots are
`step*k` for `0 ≤ k < ⌈len/step⌉`. -/
def sampledAny (buf : ℕ → ℚ) (len step : ℕ) (p : ℚ → Bool) : Bool :=
  (List.range ((len + step - 1) / step)).any fun k => p (buf (step * k))

/-- The mask presence check used before the skin-smooth and privacy-blur
stages: samples every 200th element, looking for a value `> 0`. -/
def hasMaskCheck (mask : ℕ → ℚ) (len : ℕ) : Bool :=
  sampledAny mask len 200 fun v => decide (0 < v)

/-- The liquify presence check used before the field-application stage:
samples every 500th element of the `dx` grid only, looking for a value
`≠ 0`. -/
def hasLiquifyCheck (dxF : ℕ → ℚ) (len : ℕ) : Bool :=
  sampledAny dxF len 500 fun v => decide (v ≠ 0)

/-- `applyLiquifyInto` from the liquify module, writing into a freshly
allocated all-zero destination buffer (as both render pipelines do):
for each output pixel `(x, y)`, bilinearly sample the source at
`(x + dx[idx], y + dy[idx])`.  `sx0`/`sy0` are clamped on both sides;
`sx1`/`sy1` only against the upper bound, exactly as in the source.  If
`sx1c` or `sy1c` is negative the JS reads `src[undefined]`, the channel
arithmetic yields `NaN`, and the `Uint8ClampedArray` store writes `0`;
that path is modelled by the explicit `0` branch. -/
def applyLiquifyIntoFresh (src : ℕ → ℚ) (dxF dyF : ℕ → ℚ) (width height : ℕ) :
    ℕ → ℚ := fun i =>
  if i < width * height * 4 then
    let ch := i % 4
    let idx := i / 4
    let x := idx % width
    let y := idx / width
    let sx := (x : ℚ) + dxF idx
    let sy := (y : ℚ) + dyF idx
    let sx0 : ℤ := ⌊sx⌋
    let sy0 : ℤ := ⌊sy⌋
    let fx := sx - sx0
    let fy := sy - sy0
    let sx0c : ℤ := if sx0 < 0 then 0 else if (width : ℤ) ≤ sx0 then width - 1 else sx0
    let sx1c : ℤ := if (width : ℤ) ≤ sx0 + 1 then width - 1 else sx0 + 1
    let sy0c : ℤ := if sy0 < 0 then 0 else if (height : ℤ) ≤ sy0 then height - 1 else sy0
    let sy1c : ℤ := if (height : ℤ) ≤ sy0 + 1 then height - 1 else sy0 + 1
    if sx1c < 0 ∨ sy1c < 0 then 0
    else
      let i00 := ((sy0c * width + sx0c) * 4).toNat + ch
      let i10 := ((sy0c * width + sx1c) * 4).toNat + ch
      let i01 := ((sy1c * width + sx0c) * 4).toNat + ch
      let i11 := ((sy1c * width + sx1c) * 4).toNat + ch
      let w00 := (1 - fx) * (1 - fy)
      let w10 := fx * (1 - fy)
      let w01 := (1 - fx) * fy
      let w11 := fx * fy
      u8storeQ (src i00 * w00 + src i10 * w10 + src i01 * w01 + src i11 * w11)
  else 0

/-- The liquify stage as guarded by the presence check: apply the field
only when `hasLiquifyCheck` fires, otherwise leave the buffer as is. -/
def liquifyStageChecked (src : ℕ → ℚ) (dxF dyF : ℕ → ℚ) (width height : ℕ) :
    ℕ → ℚ :=
  if hasLiquifyCheck dxF (width * height) then
    applyLiquifyIntoFresh src dxF dyF width height
  else src

/-! ### Multi-resolution adapters (full-resolution render pipeline)

`upsampleMask` (nearest neighbour) and `upsampleDisplacement` (bilinear
plus value rescaling) from the full-resolution render module. -/

/-- Nearest-neighbour upsample of a mask grid. -/
def upsampleMask (mask : ℕ → ℚ) (srcW srcH dstW dstH : ℕ) : ℕ → ℚ :=
  if srcW = dstW ∧ srcH = dstH then fun idx => mask idx
  else fun idx =>
    let y := idx / dstW
    let x := idx % dstW
    let sy := min ((jsRound ((y : ℚ) * srcH / dstH)).toNat) (srcH - 1)
    let sx := min ((jsRound ((x : ℚ) * srcW / dstW)).toNat) (srcW - 1)
    mask (sy * srcW + sx)

/-- Bilinear upsample of a displacement-field grid, also scaling each
sampled displacement value by `valueScale` (display-pixel units →
target-pixel units).  For equal sizes the source returns a plain copy
when `valueScale = 1` and a scaled copy otherwise. -/
def upsampleDisplacement (field : ℕ → ℚ) (srcW srcH dstW dstH : ℕ)
    (valueScale : ℚ) : ℕ → ℚ :=
  if srcW = dstW ∧ srcH = dstH then
    if valueScale = 1 then fun idx => field idx
    else fun idx => field idx * valueScale
  else fun idx =>
    let y := idx / dstW
    let x := idx % dstW
    let scaleX : ℚ := ((srcW : ℚ) - 1) / max ((dstW : ℚ) - 1) 1
    let scaleY : ℚ := ((srcH : ℚ) - 1) / max ((dstH : ℚ) - 1) 1
    let sx := (x : ℚ) * scaleX
    let sy := (y : ℚ) * scaleY
    let sx0 : ℤ := ⌊sx⌋
    let sy0 : ℤ := ⌊sy⌋
    let fx := sx - sx0
    let fy := sy - sy0
    let sx1 : ℤ := min (sx0 + 1) ((srcW : ℤ) - 1)
    let sy1 : ℤ := min (sy0 + 1) ((srcH : ℤ) - 1)
    let v :=
      field ((sy0 * srcW + sx0).toNat) * (1 - fx) * (1 - fy) +
      field ((sy0 * srcW + sx1).toNat) * fx       * (1 - fy) +
      field ((sy1 * srcW + sx0).toNat) * (1 - fx) * fy +
      field ((sy1 * srcW + sx1).toNat) * fx       * fy
    v * valueScale

/-! ### Face warp: control-point builder and Gaussian RBF evaluator
(faceWarp module)

Landmarks, adjustments and control points live over `ℝ` because the
builder normalises the orientation vector with `Math.hypot` and the
evaluator weights contributions with `Math.exp`.  The landmark array is
a `List FaceLandmark`; `lm[i]` being `undefined` (index out of range)
corresponds to `lm.get? i = none`. -/

/-- A detected face landmark (`z` is unused by the warps). -/
structure FaceLandmark where
  x : ℝ
  y : ℝ
  z : ℝ

/-- The face adjustment sliders read by the control-point builder. -/
structure FaceAdjustments where
  smallFace : ℝ
  slimJaw : ℝ
  chinLength : ℝ
  eyeSize : ℝ
  eyeWidth : ℝ
  noseSlim : ℝ
  noseTip : ℝ
  lipThickness : ℝ
  mouthCorner : ℝ
  mouthWidth : ℝ
  midFaceShorten : ℝ
  jawlineSmooth : ℝ

/-- A warp control point: anchor position, raw displacement, Gaussian
falloff radius. -/
structure ControlPoint where
  x : ℝ
  y : ℝ
  dx : ℝ
  dy : ℝ
  sigma : ℝ

/-- MediaPipe FaceMesh jaw/cheek contour indices. -/
def LM_JAW : List ℕ :=
  [356, 454, 323, 361, 288, 397, 365, 379, 378, 400,
   377, 152, 148,
   176, 149, 150, 136, 172, 58, 132, 93, 234, 127]

/-- Chin landmark index. -/
def LM_CHIN : List ℕ := [152]

/-- Left-eye contour indices. -/
def LM_LEFT_EYE : List ℕ :=
  [362, 382, 381, 380, 374, 373, 390, 249, 263, 466, 388, 387, 386, 385, 384, 398]

/-- Right-eye contour indices. -/
def LM_RIGHT_EYE : List ℕ :=
  [33, 7, 163, 144, 145, 153, 154, 155, 133, 173, 157, 158, 159, 160, 161, 246]

/-- Nose-tip indices. -/
def LM_NOSE_TIP : List ℕ := [4, 5, 1, 19, 94]

/-- Left nose-wing indices. -/
def LM_LEFT_NOSE_WING : List ℕ := [129, 209, 198]

/-- Right nose-wing indices. -/
def LM_RIGHT_NOSE_WING : List ℕ := [358, 429, 420]

/-- Upper-lip top contour indices. -/
def LM_UPPER_LIP_TOP : List ℕ := [0, 267, 37, 39, 40, 270, 269]

/-- Lower-lip bottom contour indices. -/
def LM_LOWER_LIP_BOTTOM : List ℕ := [17, 314, 84, 181, 91, 405, 321]

/-- Mouth-corner indices (left, right). -/
def LM_MOUTH_CORNER : List ℕ := [61, 291]

/-- Face-oval boundary indices. -/
def FACE_OVAL_INDICES : List ℕ :=
  [10, 338, 297, 332, 284, 251, 389, 356, 454, 323, 361, 288,
   397, 365, 379, 378, 400, 377, 152, 148, 176, 149, 150, 136,
   172, 58, 132, 93, 234, 127, 162, 21, 54, 103, 67, 109]

/-- The slim-jaw rule's own lower-jaw index list. -/
def LM_JAW_LOWER : List ℕ := [377, 400, 378, 379, 365, 397, 152, 148, 176, 149, 150]

/-- The mid-face-shorten rule's landmark list (nose, nostrils, philtrum). -/
def LM_MID_FACE : List ℕ :=
  [1, 2, 4, 5, 6, 19, 94, 97, 98, 99, 129, 358, 164, 393, 168, 122, 351, 49, 279]

/-- Rotation-invariant face frame: unit up/right axes, oval centre, and
anatomical width/height obtained by projecting the oval boundary points
onto the axes. -/
structure FaceFrame where
  upX : ℝ
  upY : ℝ
  rightX : ℝ
  rightY : ℝ
  cx : ℝ
  cy : ℝ
  faceWidth : ℝ
  faceHeight : ℝ

/-- Minimum of a list of reals.  The source seeds its fold with
`Infinity`; for the nonempty projection lists that occur (the guard
`lm.length ≥ 400` puts, e.g., oval index 10 in range) this equals the
head-seeded fold.  The `[]` case is unreachable there. -/
noncomputable def listMin : List ℝ → ℝ
  | [] => 0
  | a :: as => as.foldl min a

/-- Maximum of a list of reals (see `listMin`). -/
noncomputable def listMax : List ℝ → ℝ
  | [] => 0
  | a :: as => as.foldl max a

/-- Signed projection of a point onto the face-right axis, relative to
the face centre. -/
noncomputable def projR (fr : FaceFrame) (px py : ℝ) : ℝ :=
  (px - fr.cx) * fr.rightX + (py - fr.cy) * fr.rightY

/-- Signed projection of a point onto the face-up axis, relative to the
face centre. -/
noncomputable def projU (fr : FaceFrame) (px py : ℝ) : ℝ :=
  (px - fr.cx) * fr.upX + (py - fr.cy) * fr.upY

/-- Convert a face-local displacement (h = rightward, v = upward) into
an image-space dx. -/
noncomputable def toImgDx (fr : FaceFrame) (h v : ℝ) : ℝ :=
  h * fr.rightX + v * fr.upX

/-- Convert a face-local displacement into an image-space dy. -/
noncomputable def toImgDy (fr : FaceFrame) (h v : ℝ) : ℝ :=
  h * fr.rightY + v * fr.upY

open Classical in
/-- The face-orientation / centre / extent computation at the head of
`buildFaceControlPoints`: up axis from the chin→forehead vector
(`none` if its length is below 1, or if either landmark is missing),
right axis perpendicular to it, centre and extents from the projected
face-oval boundary points. -/
noncomputable def faceFrame? (lm : List FaceLandmark) : Option FaceFrame :=
  match lm.get? 152, lm.get? 10 with
  | some chin, some forehead =>
      let upRawX := forehead.x - chin.x
      let upRawY := forehead.y - chin.y
      let upLen := Real.sqrt (upRawX ^ 2 + upRawY ^ 2)
      if upLen < 1 then none
      else
        let upX := upRawX / upLen
        let upY := upRawY / upLen
        let rightX := -upY
        let rightY := upX
        let ovalPts := FACE_OVAL_INDICES.filterMap fun i => lm.get? i
        let cx := (ovalPts.map (fun p => p.x)).sum / (ovalPts.length : ℝ)
        let cy := (ovalPts.map (fun p => p.y)).sum / (ovalPts.length : ℝ)
        let rs := ovalPts.map fun p => (p.x - cx) * rightX + (p.y - cy) * rightY
        let us := ovalPts.map fun p => (p.x - cx) * upX + (p.y - cy) * upY
        some { upX := upX, upY := upY, rightX := rightX, rightY := rightY,
               cx := cx, cy := cy,
               faceWidth := listMax rs - listMin rs,
               faceHeight := listMax us - listMin us }
  | _, _ => none

open Classical in
/-- Small Face rule: pull every jaw landmark toward the face centre,
stronger along the right axis than the up axis. -/
noncomputable def smallFaceCPs (lm : List FaceLandmark) (adj : FaceAdjustments)
    (fr : FaceFrame) : List ControlPoint :=
  if adj.smallFace ≠ 0 then
    let strength := adj.smallFace / 100
    let sigma := fr.faceWidth * 0.35
    LM_JAW.filterMap fun i => (lm.get? i).map fun p =>
      let h := -(projR fr p.x p.y) * strength * 0.35
      let v := -(projU fr p.x p.y) * strength * 0.1
      ⟨p.x, p.y, toImgDx fr h v, toImgDy fr h v, sigma⟩
  else []

open Classical in
/-- Slim Jaw rule: pull the lower-jaw landmarks toward the centre along
the face-right axis. -/
noncomputable def slimJawCPs (lm : List FaceLandmark) (adj : FaceAdjustments)
    (fr : FaceFrame) : List ControlPoint :=
  if adj.slimJaw ≠ 0 then
    let strength := adj.slimJaw / 100
    let sigma := fr.faceWidth * 0.22
    LM_JAW_LOWER.filterMap fun i => (lm.get? i).map fun p =>
      let h := -(projR fr p.x p.y) * strength * 0.28
      ⟨p.x, p.y, toImgDx fr h 0, toImgDy fr h 0, sigma⟩
  else []

open Classical in
/-- Chin Length rule: move the chin along the (negated) face-up axis. -/
noncomputable def chinLengthCPs (lm : List FaceLandmark) (adj : FaceAdjustments)
    (fr : FaceFrame) : List ControlPoint :=
  if adj.chinLength ≠ 0 then
    let strength := adj.chinLength / 50
    let delta := fr.faceHeight * 0.04 * strength
    let sigma := fr.faceWidth * 0.15
    LM_CHIN.filterMap fun i => (lm.get? i).map fun p =>
      ⟨p.x, p.y, toImgDx fr 0 (-delta), toImgDy fr 0 (-delta), sigma⟩
  else []

/-- Eye Size helper: radial expansion of one eye's contour from that
eye's own centre. -/
noncomputable def eyeSizeCPsFor (lm : List FaceLandmark) (expandFactor sigma : ℝ)
    (eyeIndices : List ℕ) : List ControlPoint :=
  let pts := eyeIndices.filterMap fun i => lm.get? i
  let ecx := (pts.map (fun p => p.x)).sum / (pts.length : ℝ)
  let ecy := (pts.map (fun p => p.y)).sum / (pts.length : ℝ)
  eyeIndices.filterMap fun i => (lm.get? i).map fun p =>
    ⟨p.x, p.y, (p.x - ecx) * expandFactor, (p.y - ecy) * expandFactor, sigma⟩

open Classical in
/-- Eye Size rule. -/
noncomputable def eyeSizeCPs (lm : List FaceLandmark) (adj : FaceAdjustments)
    (fr : FaceFrame) : List ControlPoint :=
  if adj.eyeSize ≠ 0 then
    let strength := adj.eyeSize / 100
    let expandFactor := strength * 0.22
    let sigma := fr.faceWidth * 0.09
    eyeSizeCPsFor lm expandFactor sigma LM_LEFT_EYE ++
      eyeSizeCPsFor lm expandFactor sigma LM_RIGHT_EYE
  else []

open Classical in
/-- Eye Width helper: move one eye's corner landmarks apart (or
together) along the face-right axis, relative to that eye's centre. -/
noncomputable def eyeWidthCornerCPs (lm : List FaceLandmark) (fr : FaceFrame)
    (strength sigma : ℝ) (cornerIndices eyeIndices : List ℕ) : List ControlPoint :=
  let pts := eyeIndices.filterMap fun i => lm.get? i
  let ecx := (pts.map (fun p => p.x)).sum / (pts.length : ℝ)
  let ecy := (pts.map (fun p => p.y)).sum / (pts.length : ℝ)
  cornerIndices.filterMap fun i => (lm.get? i).map fun p =>
    let relR := (p.x - ecx) * fr.rightX + (p.y - ecy) * fr.rightY
    let dir : ℝ := if relR > 0 then 1 else -1
    let h := dir * fr.faceWidth * 0.025 * strength
    ⟨p.x, p.y, toImgDx fr h 0, toImgDy fr h 0, sigma⟩

open Classical in
/-- Eye Width rule. -/
noncomputable def eyeWidthCPs (lm : List FaceLandmark) (adj : FaceAdjustments)
    (fr : FaceFrame) : List ControlPoint :=
  if adj.eyeWidth ≠ 0 then
    let strength := adj.eyeWidth / 50
    let sigma := fr.faceWidth * 0.08
    eyeWidthCornerCPs lm fr strength sigma [33, 133] LM_RIGHT_EYE ++
      eyeWidthCornerCPs lm fr strength sigma [362, 263] LM_LEFT_EYE
  else []

open Classical in
/-- Nose Slim rule: pull the nose-wing landmarks toward the nose centre
along the face-right axis. -/
noncomputable def noseSlimCPs (lm : List FaceLandmark) (adj : FaceAdjustments)
    (fr : FaceFrame) : List ControlPoint :=
  if adj.noseSlim ≠ 0 then
    let strength := adj.noseSlim / 100
    let sigma := fr.faceWidth * 0.07
    match lm.get? 1 with
    | some noseCentral =>
        let noseR := projR fr noseCentral.x noseCentral.y
        let addWing := fun (indices : List ℕ) =>
          indices.filterMap fun i => (lm.get? i).map fun p =>
            let h := (noseR - projR fr p.x p.y) * strength * 0.45
            (⟨p.x, p.y, toImgDx fr h 0, toImgDy fr h 0, sigma⟩ : ControlPoint)
        addWing LM_LEFT_NOSE_WING ++ addWing LM_RIGHT_NOSE_WING
    | none => []
  else []

open Classical in
/-- Nose Tip rule: move the nose-tip landmarks along the face-up axis. -/
noncomputable def noseTipCPs (lm : List FaceLandmark) (adj : FaceAdjustments)
    (fr : FaceFrame) : List ControlPoint :=
  if adj.noseTip ≠ 0 then
    let strength := adj.noseTip / 50
    let delta := fr.faceHeight * 0.025 * strength
    let sigma := fr.faceWidth * 0.08
    LM_NOSE_TIP.filterMap fun i => (lm.get? i).map fun p =>
      ⟨p.x, p.y, toImgDx fr 0 delta, toImgDy fr 0 delta, sigma⟩
  else []

open Classical in
/-- Lip Thickness rule: upper lip toward the forehead, lower lip away. -/
noncomputable def lipThicknessCPs (lm : List FaceLandmark) (adj : FaceAdjustments)
    (fr : FaceFrame) : List ControlPoint :=
  if adj.lipThickness ≠ 0 then
    let strength := adj.lipThickness / 50
    let delta := fr.faceHeight * 0.018 * strength
    let sigma := fr.faceWidth * 0.1
    (LM_UPPER_LIP_TOP.filterMap fun i => (lm.get? i).map fun p =>
      (⟨p.x, p.y, toImgDx fr 0 (delta * 0.6), toImgDy fr 0 (delta * 0.6), sigma⟩ :
        ControlPoint)) ++
    (LM_LOWER_LIP_BOTTOM.filterMap fun i => (lm.get? i).map fun p =>
      ⟨p.x, p.y, toImgDx fr 0 (-delta * 0.6), toImgDy fr 0 (-delta * 0.6), sigma⟩)
  else []

open Classical in
/-- Mouth Corner rule: lift or drop the two mouth corners along the
face-up axis. -/
noncomputable def mouthCornerCPs (lm : List FaceLandmark) (adj : FaceAdjustments)
    (fr : FaceFrame) : List ControlPoint :=
  if adj.mouthCorner ≠ 0 then
    let strength := adj.mouthCorner / 50
    let delta := fr.faceHeight * 0.015 * strength
    let sigma := fr.faceWidth * 0.06
    LM_MOUTH_CORNER.filterMap fun i => (lm.get? i).map fun p =>
      ⟨p.x, p.y, toImgDx fr 0 delta, toImgDy fr 0 delta, sigma⟩
  else []

open Classical in
/-- Mouth Width rule: move mouth landmarks outward or inward from the
mouth centre along the face-right axis. -/
noncomputable def mouthWidthCPs (lm : List FaceLandmark) (adj : FaceAdjustments)
    (fr : FaceFrame) : List ControlPoint :=
  if adj.mouthWidth ≠ 0 then
    let strength := adj.mouthWidth / 50
    let sigma := fr.faceWidth * 0.07
    match lm.get? 61, lm.get? 291 with
    | some leftCorner, some rightCorner =>
        let mouthCenterR :=
          (projR fr leftCorner.x leftCorner.y + projR fr rightCorner.x rightCorner.y) / 2
        let delta := fr.faceWidth * 0.03 * strength
        let moveCorners := fun (indices : List ℕ) =>
          indices.filterMap fun i => (lm.get? i).map fun p =>
            let h := if projR fr p.x p.y - mouthCenterR > 0 then delta else -delta
            (⟨p.x, p.y, toImgDx fr h 0, toImgDy fr h 0, sigma⟩ : ControlPoint)
        moveCorners [61, 78, 95, 88] ++ moveCorners [291, 308, 324, 318]
    | _, _ => []
  else []

open Classical in
/-- Mid-Face Shorten rule: compress the eye-to-upper-lip region along
the face-up axis, with more displacement near the lip. -/
noncomputable def midFaceShortenCPs (lm : List FaceLandmark) (adj : FaceAdjustments)
    (fr : FaceFrame) : List ControlPoint :=
  if adj.midFaceShorten ≠ 0 then
    let strength := adj.midFaceShorten / 100
    let sigma := fr.faceHeight * 0.18
    let eyeBottomProjU :=
      match lm.get? 23, lm.get? 253 with
      | some a, some b => (projU fr a.x a.y + projU fr b.x b.y) / 2
      | _, _ => fr.faceHeight * 0.15
    let lipTopProjU :=
      match lm.get? 0 with
      | some p => projU fr p.x p.y
      | none => eyeBottomProjU - fr.faceHeight * 0.25
    let midFaceRangeU := eyeBottomProjU - lipTopProjU
    let delta := midFaceRangeU * 0.25 * strength
    (LM_MID_FACE.filterMap fun i => (lm.get? i).map fun p =>
      let pProjU := projU fr p.x p.y
      let relPos :=
        if midFaceRangeU > 0 then
          max 0 (min 1 ((eyeBottomProjU - pProjU) / midFaceRangeU))
        else 0
      (⟨p.x, p.y, toImgDx fr 0 (delta * relPos), toImgDy fr 0 (delta * relPos), sigma⟩ :
        ControlPoint)) ++
    (LM_UPPER_LIP_TOP.filterMap fun i => (lm.get? i).map fun p =>
      ⟨p.x, p.y, toImgDx fr 0 (delta * 0.5), toImgDy fr 0 (delta * 0.5),
        fr.faceWidth * 0.1⟩)
  else []

open Classical in
/-- Jawline Smooth rule: displace each jaw landmark toward the straight
reference line between the chin and the cheek anchors (in face-local
coordinates), skipping landmarks whose correction is below 0.1. -/
noncomputable def jawlineSmoothCPs (lm : List FaceLandmark) (adj : FaceAdjustments)
    (fr : FaceFrame) : List ControlPoint :=
  if adj.jawlineSmooth ≠ 0 then
    let strength := adj.jawlineSmooth / 100
    let sigma := fr.faceWidth * 0.09
    match lm.get? 454, lm.get? 234, lm.get? 152 with
    | some rightCheekLm, some leftCheekLm, some chinLm =>
        let chinU := projU fr chinLm.x chinLm.y
        let rightCheekR := projR fr rightCheekLm.x rightCheekLm.y
        let rightCheekU := projU fr rightCheekLm.x rightCheekLm.y
        let leftCheekR := projR fr leftCheekLm.x leftCheekLm.y
        let leftCheekU := projU fr leftCheekLm.x leftCheekLm.y
        LM_JAW.filterMap fun i => (lm.get? i).bind fun p =>
          let pR := projR fr p.x p.y
          let pU := projU fr p.x p.y
          let refU? : Option ℝ :=
            if pR ≥ 0 ∧ rightCheekR > 0 then
              some (chinU + min 1 (pR / rightCheekR) * (rightCheekU - chinU))
            else if pR < 0 ∧ leftCheekR < 0 then
              some (chinU + min 1 (pR / leftCheekR) * (leftCheekU - chinU))
            else none
          refU?.bind fun refU =>
            let dU := (refU - pU) * strength * 0.6
            if |dU| < 0.1 then none
            else some ⟨p.x, p.y, toImgDx fr 0 dU, toImgDy fr 0 dU, sigma⟩
    | _, _, _ => []
  else []

open Classical in
/-- `buildFaceControlPoints` from the faceWarp module: empty for a
landmark list shorter than 400 entries or a degenerate frame; otherwise
the concatenation of the twelve per-feature rules in source order. -/
noncomputable def buildFaceControlPoints (lm : List FaceLandmark)
    (adj : FaceAdjustments) : List ControlPoint :=
  if lm.length < 400 then []
  else
    match faceFrame? lm with
    | none => []
    | some fr =>
        smallFaceCPs lm adj fr ++ slimJawCPs lm adj fr ++ chinLengthCPs lm adj fr ++
        eyeSizeCPs lm adj fr ++ eyeWidthCPs lm adj fr ++ noseSlimCPs lm adj fr ++
        noseTipCPs lm adj fr ++ lipThicknessCPs lm adj fr ++ mouthCornerCPs lm adj fr ++
        mouthWidthCPs lm adj fr ++ midFaceShortenCPs lm adj fr ++ jawlineSmoothCPs lm adj fr

/-- Model of an `ImageData`: width, height, and the flat RGBA data array
(one `ℝ` entry per 8-bit channel sample). -/
@[ext] structure ImageDataM where
  width : ℕ
  height : ℕ
  data : ℕ → ℝ

open Classical in
/-- The Gaussian weight a single control point contributes at pixel
`(x, y)` in `applyFaceWarp`: `exp(-d² / (2σ²))` when `d² ≤ 9σ²`, and
exactly `0` beyond the 3-sigma cutoff (the source `continue`s, adding
nothing). -/
noncomputable def cpWeight (cp : ControlPoint) (x y : ℝ) : ℝ :=
  let d2 := (x - cp.x) ^ 2 + (y - cp.y) ^ 2
  let sigma2 := cp.sigma ^ 2
  if d2 > sigma2 * 9 then 0 else Real.exp (-d2 / (2 * sigma2))

/-- Total x-displacement of the Gaussian sum at pixel `(x, y)`. -/
noncomputable def warpTotalDx (cps : List ControlPoint) (x y : ℝ) : ℝ :=
  (cps.map fun cp => cp.dx * cpWeight cp x y).sum

/-- Total y-displacement of the Gaussian sum at pixel `(x, y)`. -/
noncomputable def warpTotalDy (cps : List ControlPoint) (x y : ℝ) : ℝ :=
  (cps.map fun cp => cp.dy * cpWeight cp x y).sum

open Classical in
/-- Two-sided edge clamp of an integer sample coordinate into
`[0, n-1]`, as written in `applyFaceWarp`. -/
def clampIdx (n : ℕ) (v : ℤ) : ℤ :=
  if v < 0 then 0 else if (n : ℤ) ≤ v then n - 1 else v

open Classical in
/-- `applyFaceWarp` from the faceWarp module: identity on an empty
control-point list; otherwise, for every output pixel, subtract the
Gaussian-weighted total displacement (inverse warp), bilinearly sample
the source at the clamped coordinates, and store each channel through
the `Uint8ClampedArray` write.  Slots beyond `width*height*4` model the
untouched zero-initialised tail of the fresh output array. -/
noncomputable def applyFaceWarp (img : ImageDataM) (cps : List ControlPoint) :
    ImageDataM :=
  if cps.length = 0 then img
  else
    { width := img.width, height := img.height,
      data := fun i =>
        if i < img.width * img.height * 4 then
          let ch := i % 4
          let pidx := i / 4
          let x := pidx % img.width
          let y := pidx / img.width
          let sx := (x : ℝ) - warpTotalDx cps (x : ℝ) (y : ℝ)
          let sy := (y : ℝ) - warpTotalDy cps (x : ℝ) (y : ℝ)
          let sx0 : ℤ := ⌊sx⌋
          let sy0 : ℤ := ⌊sy⌋
          let fx := sx - sx0
          let fy := sy - sy0
          let sx0c := clampIdx img.width sx0
          let sx1c := clampIdx img.width (sx0 + 1)
          let sy0c := clampIdx img.height sy0
          let sy1c := clampIdx img.height (sy0 + 1)
          let i00 := ((sy0c * img.width + sx0c) * 4).toNat + ch
          let i10 := ((sy0c * img.width + sx1c) * 4).toNat + ch
          let i01 := ((sy1c * img.width + sx0c) * 4).toNat + ch
          let i11 := ((sy1c * img.width + sx1c) * 4).toNat + ch
          let w00 := (1 - fx) * (1 - fy)
          let w10 := fx * (1 - fy)
          let w01 := (1 - fx) * fy
          let w11 := fx * fy
          u8storeR (img.data i00 * w00 + img.data i10 * w10 +
            img.data i01 * w01 + img.data i11 * w11)
        else 0 }

/-! ### Compositor models

The interactive (display-resolution) compositor `renderCanvas` and the
full-resolution export compositor `renderAtOriginalResolution` are
transcribed stage by stage.  The face-warp stage, the guards, and the
mask/field resampling are the concrete models above; the remaining
pixel-level stage bodies (skin smoothing, privacy blur, colour
adjustments, filters, Gaussian blur, liquify application, vignette,
body control-point generation) live in other modules and are opaque to
the compositor, so the pipeline models are parameterised over them via
`StageOps`. -/

/-- Body warp anchor points (display-space coordinates). -/
structure BodyAnchorsM where
  chest : Option (ℚ × ℚ)
  leftThigh : Option (ℚ × ℚ)
  rightThigh : Option (ℚ × ℚ)

/-- Body adjustment sliders. -/
structure BodyAdjustmentsM where
  chestSize : ℚ
  thighSize : ℚ
  leftThighSize : ℚ
  rightThighSize : ℚ

/-- `hasBodyAdjustment` from the bodyWarp module: true iff some anchor
is set with a non-zero total adjustment for its region. -/
def hasBodyAdjustment (anchors : BodyAnchorsM) (adj : BodyAdjustmentsM) : Bool :=
  if anchors.chest.isSome ∧ adj.chestSize ≠ 0 then true
  else if anchors.leftThigh.isSome ∧ adj.thighSize + adj.leftThighSize ≠ 0 then true
  else if anchors.rightThigh.isSome ∧ adj.thighSize + adj.rightThighSize ≠ 0 then true
  else false

/-- Global tone adjustment sliders. -/
structure AdjustmentsM where
  brightness : ℚ
  contrast : ℚ
  saturation : ℚ
  warmth : ℚ
  exposure : ℚ
  shadows : ℚ
  highlights : ℚ
  clarity : ℚ
  sharpness : ℚ
  vignette : ℚ

/-- Stylistic filter presets. -/
inductive FilterPreset
  | none | clear | soft | film | vivid | matte | warm | cool | bw | portrait
  deriving DecidableEq

/-- Skin-smoothing settings. -/
structure SkinSettingsM where
  smoothness : ℚ
  skinBrightness : ℚ
  brushSize : ℚ

/-- Liquify tool settings. -/
structure LiquifySettingsM where
  size : ℚ
  strength : ℚ
  mode : LiquifyMode
  texturePreservation : ℚ

/-- The slice of the editor state both compositors read.  Masks and
displacement fields are stored at display resolution; landmarks and
anchors in display-space coordinates. -/
structure EditorStateM where
  imageWidth : ℕ
  imageHeight : ℕ
  displayScale : ℚ
  adjustments : AdjustmentsM
  faceAdjustments : FaceAdjustments
  bodyAdjustments : BodyAdjustmentsM
  bodyAnchors : BodyAnchorsM
  skinSettings : SkinSettingsM
  liquifySettings : LiquifySettingsM
  liquifyDX : Option (ℕ → ℚ)
  liquifyDY : Option (ℕ → ℚ)
  skinMask : Option (ℕ → ℚ)
  privacyMask : Option (ℕ → ℚ)
  activeFilter : FilterPreset
  landmarks : Option (List FaceLandmark)

/-- The out-of-scope pixel-stage implementations the compositors call;
`draw w h` is "draw the session's source image at `w × h`". -/
structure StageOps where
  draw : ℕ → ℕ → ImageDataM
  buildBodyControlPoints : BodyAnchorsM → BodyAdjustmentsM → ℕ → ℕ → List ControlPoint
  applySkinSmooth : ImageDataM → (ℕ → ℚ) → ℚ → ℚ → ImageDataM
  applyPrivacyBlur : ImageDataM → (ℕ → ℚ) → ImageDataM
  applyColorAdjustments : ImageDataM → AdjustmentsM → ImageDataM
  applyFilter : ImageDataM → FilterPreset → ImageDataM
  gaussianBlurRGBA : ImageDataM → ℤ → ImageDataM
  applyLiquifyInto : ImageDataM → (ℕ → ℚ) → (ℕ → ℚ) → ImageDataM
  applyLiquifyWithPreservation :
    ImageDataM → ImageDataM → (ℕ → ℚ) → (ℕ → ℚ) → ℚ → ImageDataM
  applyVignetteOverlay : ImageDataM → ℕ → ℕ → ℚ → ImageDataM

open Classical in
/-- Display compositor, face-warp stage: applied only when landmarks are
present with strictly more than 400 points and the builder returns a
nonempty list. -/
noncomputable def displayFaceStage (landmarks : Option (List FaceLandmark))
    (adj : FaceAdjustments) (img : ImageDataM) : ImageDataM :=
  match landmarks with
  | some lms =>
      if 400 < lms.length then
        let cps := buildFaceControlPoints lms adj
        if 0 < cps.length then applyFaceWarp img cps else img
      else img
  | none => img

open Classical in
/-- Full-resolution compositor, face-warp stage: landmarks are stored at
display resolution and scaled by `upScale` before building control
points; the `> 400` guard tests the unscaled list. -/
noncomputable def fullresFaceStage (landmarks : Option (List FaceLandmark))
    (adj : FaceAdjustments) (upScale : ℝ) (img : ImageDataM) : ImageDataM :=
  match landmarks with
  | some lms =>
      if 400 < lms.length then
        let scaled := lms.map fun l => { l with x := l.x * upScale, y := l.y * upScale }
        let cps := buildFaceControlPoints scaled adj
        if 0 < cps.length then applyFaceWarp img cps else img
      else img
  | none => img

/-- Display compositor, body-warp stage. -/
noncomputable def displayBodyStage (ops : StageOps) (s : EditorStateM)
    (dw dh : ℕ) (img : ImageDataM) : ImageDataM :=
  if hasBodyAdjustment s.bodyAnchors s.bodyAdjustments then
    let bodyCPs := ops.buildBodyControlPoints s.bodyAnchors s.bodyAdjustments dw dh
    if 0 < bodyCPs.length then applyFaceWarp img bodyCPs else img
  else img

/-- Display compositor, skin-smoothing stage (guarded by the sparse mask
presence check over the display-sized mask). -/
noncomputable def displaySkinStage (ops : StageOps) (s : EditorStateM)
    (dw dh : ℕ) (img : ImageDataM) : ImageDataM :=
  match s.skinMask with
  | some mask =>
      if hasMaskCheck mask (dw * dh) then
        ops.applySkinSmooth img mask s.skinSettings.smoothness s.skinSettings.skinBrightness
      else img
  | none => img

/-- Display compositor, privacy-blur stage. -/
noncomputable def displayPrivacyStage (ops : StageOps) (s : EditorStateM)
    (dw dh : ℕ) (img : ImageDataM) : ImageDataM :=
  match s.privacyMask with
  | some mask =>
      if hasMaskCheck mask (dw * dh) then ops.applyPrivacyBlur img mask else img
  | none => img

/-- Display compositor, global tone stage (unconditional). -/
noncomputable def displayToneStage (ops : StageOps) (s : EditorStateM)
    (img : ImageDataM) : ImageDataM :=
  ops.applyColorAdjustments img s.adjustments

/-- Display compositor, stylistic filter stage. -/
noncomputable def displayFilterStage (ops : StageOps) (s : EditorStateM)
    (img : ImageDataM) : ImageDataM :=
  if s.activeFilter ≠ FilterPreset.none then ops.applyFilter img s.activeFilter else img

/-- Display compositor, liquify field-application stage (guarded by the
sparse presence check on the `dx` grid; the texture-preservation branch
blends with a blurred copy of the base, blur radius 5). -/
noncomputable def displayLiquifyStage (ops : StageOps) (s : EditorStateM)
    (dw dh : ℕ) (img : ImageDataM) : ImageDataM :=
  match s.liquifyDX, s.liquifyDY with
  | some dxF, some dyF =>
      if hasLiquifyCheck dxF (dw * dh) then
        let t := s.liquifySettings.texturePreservation / 100
        if 0 < t then
          ops.applyLiquifyWithPreservation img (ops.gaussianBlurRGBA img 5) dxF dyF t
        else ops.applyLiquifyInto img dxF dyF
      else img
  | _, _ => img

/-- Display compositor, vignette overlay stage. -/
noncomputable def displayVignetteStage (ops : StageOps) (s : EditorStateM)
    (dw dh : ℕ) (img : ImageDataM) : ImageDataM :=
  if 0 < s.adjustments.vignette then
    ops.applyVignetteOverlay img dw dh s.adjustments.vignette
  else img

/-- Full-resolution compositor, body-warp stage: the guard tests the
unscaled anchors; the builder receives anchors scaled by `upScale` and
the original canvas dimensions. -/
noncomputable def fullresBodyStage (ops : StageOps) (s : EditorStateM)
    (img : ImageDataM) : ImageDataM :=
  if hasBodyAdjustment s.bodyAnchors s.bodyAdjustments then
    let upScale : ℚ := 1 / s.displayScale
    let scaledAnchors : BodyAnchorsM :=
      { chest := s.bodyAnchors.chest.map fun a => (a.1 * upScale, a.2 * upScale),
        leftThigh := s.bodyAnchors.leftThigh.map fun a => (a.1 * upScale, a.2 * upScale),
        rightThigh := s.bodyAnchors.rightThigh.map fun a => (a.1 * upScale, a.2 * upScale) }
    let bodyCPs := ops.buildBodyControlPoints scaledAnchors s.bodyAdjustments
      s.imageWidth s.imageHeight
    if 0 < bodyCPs.length then applyFaceWarp img bodyCPs else img
  else img

/-- Display dimensions used by the full-resolution pipeline:
`Math.round(orig * displayScale)`. -/
def fullresDisplayW (s : EditorStateM) : ℕ :=
  (jsRound ((s.imageWidth : ℚ) * s.displayScale)).toNat

/-- Display height used by the full-resolution pipeline. -/
def fullresDisplayH (s : EditorStateM) : ℕ :=
  (jsRound ((s.imageHeight : ℚ) * s.displayScale)).toNat

/-- Full-resolution compositor, skin-smoothing stage: the presence check
scans the display-sized mask, which is then upsampled
(nearest-neighbour) to the original resolution. -/
noncomputable def fullresSkinStage (ops : StageOps) (s : EditorStateM)
    (img : ImageDataM) : ImageDataM :=
  match s.skinMask with
  | some mask =>
      if hasMaskCheck mask (fullresDisplayW s * fullresDisplayH s) then
        let bigMask := upsampleMask mask (fullresDisplayW s) (fullresDisplayH s)
          s.imageWidth s.imageHeight
        ops.applySkinSmooth img bigMask s.skinSettings.smoothness
          s.skinSettings.skinBrightness
      else img
  | none => img

/-- Full-resolution compositor, privacy-blur stage. -/
noncomputable def fullresPrivacyStage (ops : StageOps) (s : EditorStateM)
    (img : ImageDataM) : ImageDataM :=
  match s.privacyMask with
  | some mask =>
      if hasMaskCheck mask (fullresDisplayW s * fullresDisplayH s) then
        let bigMask := upsampleMask mask (fullresDisplayW s) (fullresDisplayH s)
          s.imageWidth s.imageHeight
        ops.applyPrivacyBlur img bigMask
      else img
  | none => img

/-- Full-resolution compositor, global tone stage. -/
noncomputable def fullresToneStage (ops : StageOps) (s : EditorStateM)
    (img : ImageDataM) : ImageDataM :=
  ops.applyColorAdjustments img s.adjustments

/-- Full-resolution compositor, stylistic filter stage. -/
noncomputable def fullresFilterStage (ops : StageOps) (s : EditorStateM)
    (img : ImageDataM) : ImageDataM :=
  if s.activeFilter ≠ FilterPreset.none then ops.applyFilter img s.activeFilter else img

/-- Full-resolution compositor, liquify stage: both display-sized grids
are bilinearly upsampled to the original resolution with values scaled
by `upScale`; the texture-preservation blur radius is
`max 2 (round (5 * upScale))`. -/
noncomputable def fullresLiquifyStage (ops : StageOps) (s : EditorStateM)
    (img : ImageDataM) : ImageDataM :=
  match s.liquifyDX, s.liquifyDY with
  | some dxF, some dyF =>
      if hasLiquifyCheck dxF (fullresDisplayW s * fullresDisplayH s) then
        let upScale : ℚ := 1 / s.displayScale
        let bigDX := upsampleDisplacement dxF (fullresDisplayW s) (fullresDisplayH s)
          s.imageWidth s.imageHeight upScale
        let bigDY := upsampleDisplacement dyF (fullresDisplayW s) (fullresDisplayH s)
          s.imageWidth s.imageHeight upScale
        let t := s.liquifySettings.texturePreservation / 100
        if 0 < t then
          let blurRadius := max 2 (jsRound (5 * upScale))
          ops.applyLiquifyWithPreservation img (ops.gaussianBlurRGBA img blurRadius)
            bigDX bigDY t
        else ops.applyLiquifyInto img bigDX bigDY
      else img
  | _, _ => img

/-- Full-resolution compositor, vignette overlay stage. -/
noncomputable def fullresVignetteStage (ops : StageOps) (s : EditorStateM)
    (img : ImageDataM) : ImageDataM :=
  if 0 < s.adjustments.vignette then
    ops.applyVignetteOverlay img s.imageWidth s.imageHeight s.adjustments.vignette
  else img

/-- The display compositor `renderCanvas` (fresh-base path, original not
shown): transcribed stage sequence as it appears in the source. -/
noncomputable def renderCanvasModel (ops : StageOps) (s : EditorStateM)
    (dw dh : ℕ) : ImageDataM :=
  let id0 := ops.draw dw dh
  let id1 := displayFaceStage s.landmarks s.faceAdjustments id0
  let id2 := displayBodyStage ops s dw dh id1
  let id3 := displaySkinStage ops s dw dh id2
  let id4 := displayPrivacyStage ops s dw dh id3
  let id5 := displayToneStage ops s id4
  let id6 := displayFilterStage ops s id5
  let id7 := displayLiquifyStage ops s dw dh id6
  displayVignetteStage ops s dw dh id7

/-- The full-resolution compositor `renderAtOriginalResolution`:
transcribed stage sequence as it appears in the source. -/
noncomputable def renderAtOriginalResolutionModel (ops : StageOps)
    (s : EditorStateM) : ImageDataM :=
  let id0 := ops.draw s.imageWidth s.imageHeight
  let id1 := fullresFaceStage s.landmarks s.faceAdjustments
    (((1 / s.displayScale : ℚ) : ℝ)) id0
  let id2 := fullresBodyStage ops s id1
  let id3 := fullresSkinStage ops s id2
  let id4 := fullresPrivacyStage ops s id3
  let id5 := fullresToneStage ops s id4
  let id6 := fullresFilterStage ops s id5
  let id7 := fullresLiquifyStage ops s id6
  fullresVignetteStage ops s id7

/-- The fixed stage order the specification prescribes for the
compositor: (1) face warp, (2) body warp, (3) masked skin smoothing,
(4) masked privacy blur, (5) global tone, (6) stylistic filter,
(7) liquify field application, (8) vignette overlay.  This is the
spec-side definition the pipeline models are compared against. -/
def specStageOrder {Img : Type}
    (face body skin privacy tone filterStage liquify vignette : Img → Img)
    (base : Img) : Img :=
  vignette (liquify (filterStage (tone (privacy (skin (body (face base)))))))

/-! ### Theorems -/

/-- C9: the liquify stroke modes `pull` and `shrink` are extensionally
equal — for every displacement field, brush centre, drag delta, radius,
strength and cell, they produce exactly the same field update. -/
theorem addLiquifyStroke_pull_eq_shrink (dxF dyF : ℕ → ℝ) (width height : ℕ)
    (cx cy dx dy radius strength : ℝ) :
    addLiquifyStroke dxF dyF width height cx cy dx dy radius strength .pull =
      addLiquifyStroke dxF dyF width height cx cy dx dy radius strength .shrink := rfl

/-- C3: rescaling a constant (5,0) displacement field from 100×100 to
200×200 through `upsampleDisplacement` with value scale 2 yields exactly
(10,0) in every cell (bilinear interpolation of a constant is the
constant, times the 2× ratio). -/
theorem upsampleDisplacement_const_rescale :
    (∀ idx, upsampleDisplacement (fun _ => 5) 100 100 200 200 2 idx = 10) ∧
    (∀ idx, upsampleDisplacement (fun _ => 0) 100 100 200 200 2 idx = 0) := by
  constructor <;> intro idx <;>
    · simp only [upsampleDisplacement, if_neg (by norm_num : ¬((100:ℕ) = 200 ∧ (100:ℕ) = 200))]
      ring

/-- C8: both compositors apply their effect stages in exactly the fixed
order (1) face warp, (2) body warp, (3) skin smoothing, (4) privacy
blur, (5) global tone, (6) stylistic filter, (7) liquify field,
(8) vignette — i.e. each pipeline model factors as `specStageOrder` of
its stage transformers, for every stage implementation and editor
state. -/
theorem compositor_stage_order (ops : StageOps) (s : EditorStateM) (dw dh : ℕ) :
    renderCanvasModel ops s dw dh =
      specStageOrder (displayFaceStage s.landmarks s.faceAdjustments)
        (displayBodyStage ops s dw dh) (displaySkinStage ops s dw dh)
        (displayPrivacyStage ops s dw dh) (displayToneStage ops s)
        (displayFilterStage ops s) (displayLiquifyStage ops s dw dh)
        (displayVignetteStage ops s dw dh) (ops.draw dw dh) ∧
    renderAtOriginalResolutionModel ops s =
      specStageOrder
        (fullresFaceStage s.landmarks s.faceAdjustments ((1 / s.displayScale : ℚ) : ℝ))
        (fullresBodyStage ops s) (fullresSkinStage ops s) (fullresPrivacyStage ops s)
        (fullresToneStage ops s) (fullresFilterStage ops s) (fullresLiquifyStage ops s)
        (fullresVignetteStage ops s) (ops.draw s.imageWidth s.imageHeight) :=
  ⟨rfl, rfl⟩

/-- C10: `addLiquifyStroke` is local to the brush — a cell whose pixel
lies outside the image bounds, or at squared distance at least `radius²`
from the brush centre, keeps exactly its previous dx and dy values, in
every mode. -/
theorem addLiquifyStroke_local (dxF dyF : ℕ → ℝ) (width height : ℕ)
    (cx cy dx dy radius strength : ℝ) (mode : LiquifyMode) (idx : ℕ)
    (hout : width * height ≤ idx ∨
      radius * radius ≤
        ((pxOf width idx : ℝ) - cx) ^ 2 + ((pyOf width idx : ℝ) - cy) ^ 2) :
    (addLiquifyStroke dxF dyF width height cx cy dx dy radius strength mode).1 idx
        = dxF idx ∧
    (addLiquifyStroke dxF dyF width height cx cy dx dy radius strength mode).2 idx
        = dyF idx := by
  have hcond : ¬ (max 0 ⌊cx - radius⌋ ≤ pxOf width idx ∧
      pxOf width idx ≤ min ((width : ℤ) - 1) ⌈cx + radius⌉ ∧
      max 0 ⌊cy - radius⌋ ≤ pyOf width idx ∧
      pyOf width idx ≤ min ((height : ℤ) - 1) ⌈cy + radius⌉ ∧
      ((pxOf width idx : ℝ) - cx) ^ 2 + ((pyOf width idx : ℝ) - cy) ^ 2
        < radius * radius) := by
    rintro ⟨h1, h2, h3, h4, h5⟩
    rcases hout with hout | hout
    · rcases Nat.eq_zero_or_pos width with hw | hw
      · have hx1 : pxOf width idx ≤ (width : ℤ) - 1 := le_trans h2 (min_le_left _ _)
        have hx0 : (0 : ℤ) ≤ pxOf width idx := le_trans (le_max_left _ _) h1
        subst hw
        simp only [Nat.cast_zero] at hx1
        omega
      · have hpy : (height : ℤ) ≤ pyOf width idx := by
          unfold pyOf
          have : height ≤ idx / width :=
            (Nat.le_div_iff_mul_le hw).2 (by rwa [Nat.mul_comm])
          exact_mod_cast this
        have hy1 : pyOf width idx ≤ (height : ℤ) - 1 := le_trans h4 (min_le_left _ _)
        omega
    · linarith
  unfold addLiquifyStroke
  exact ⟨by simp only []; rw [if_neg hcond], by simp only []; rw [if_neg hcond]⟩

/-- C10 witness: a concrete stroke and a concrete far-away cell. -/
theorem addLiquifyStroke_local_witness :
    (addLiquifyStroke (fun _ => 1) (fun _ => 2) 4 4 0 0 0 0 1 50 .push).1 10 = 1 ∧
    (addLiquifyStroke (fun _ => 1) (fun _ => 2) 4 4 0 0 0 0 1 50 .push).2 10 = 2 :=
  addLiquifyStroke_local (fun _ => 1) (fun _ => 2) 4 4 0 0 0 0 1 50 .push 10
    (Or.inr (by norm_num [pxOf, pyOf]))

/-- C6: in the Gaussian sum of `applyFaceWarp`, a control point with
`sigma = 10` contributes a non-zero weight to every pixel whose squared
distance is at most `9·sigma²`, and contributes exactly zero (the guard
skips it) whenever the squared distance exceeds `9·sigma²`. -/
theorem cpWeight_three_sigma_cutoff (cp : ControlPoint) (x y : ℝ)
    (_hsig : cp.sigma = 10) :
    ((x - cp.x) ^ 2 + (y - cp.y) ^ 2 ≤ 9 * cp.sigma ^ 2 → cpWeight cp x y ≠ 0) ∧
    (9 * cp.sigma ^ 2 < (x - cp.x) ^ 2 + (y - cp.y) ^ 2 → cpWeight cp x y = 0) := by
  unfold cpWeight
  constructor
  · intro hle
    rw [if_neg (by push_neg; linarith)]
    exact Real.exp_ne_zero _
  · intro hgt
    rw [if_pos (by linarith)]

/-- C6 witness: with `sigma = 10`, a pixel at distance 29.9 gets a
non-zero weight and a pixel at distance 30.1 gets exactly zero. -/
theorem cpWeight_three_sigma_cutoff_witness :
    cpWeight ⟨0, 0, 1, 0, 10⟩ 29.9 0 ≠ 0 ∧ cpWeight ⟨0, 0, 1, 0, 10⟩ 30.1 0 = 0 :=
  ⟨(cpWeight_three_sigma_cutoff ⟨0, 0, 1, 0, 10⟩ 29.9 0 rfl).1 (by norm_num),
   (cpWeight_three_sigma_cutoff ⟨0, 0, 1, 0, 10⟩ 30.1 0 rfl).2 (by norm_num)⟩

/-- C5: the output of `applyFaceWarp` depends only on the input buffer
and the multiset of control points — permuting the control-point list
leaves the result unchanged (the per-pixel displacement is a purely
additive sum). -/
theorem applyFaceWarp_perm_invariant (img : ImageDataM)
    (cps₁ cps₂ : List ControlPoint) (hperm : cps₁.Perm cps₂) :
    applyFaceWarp img cps₁ = applyFaceWarp img cps₂ := by
  have hdx : ∀ x y : ℝ, warpTotalDx cps₁ x y = warpTotalDx cps₂ x y := fun x y =>
    List.Perm.sum_eq (hperm.map _)
  have hdy : ∀ x y : ℝ, warpTotalDy cps₁ x y = warpTotalDy cps₂ x y := fun x y =>
    List.Perm.sum_eq (hperm.map _)
  have hlen := hperm.length_eq
  unfold applyFaceWarp
  by_cases h1 : cps₁.length = 0
  · rw [if_pos h1, if_pos (hlen ▸ h1)]
  · rw [if_neg h1, if_neg (fun hh => h1 (hlen.trans hh))]
    refine ImageDataM.ext rfl rfl ?_
    funext i
    simp only [hdx, hdy]

/-- Control point used by the C5 witness. -/
def cpSwapA : ControlPoint := ⟨1, 2, 3, 4, 5⟩

/-- Second control point used by the C5 witness. -/
def cpSwapB : ControlPoint := ⟨6, 7, 8, 9, 10⟩

/-- C5 witness: swapping two concrete control points leaves the warp of
a concrete image unchanged. -/
theorem applyFaceWarp_perm_invariant_witness :
    applyFaceWarp ⟨1, 1, fun _ => 0⟩ [cpSwapA, cpSwapB] =
      applyFaceWarp ⟨1, 1, fun _ => 0⟩ [cpSwapB, cpSwapA] :=
  applyFaceWarp_perm_invariant ⟨1, 1, fun _ => 0⟩ [cpSwapA, cpSwapB]
    [cpSwapB, cpSwapA] (List.Perm.swap cpSwapB cpSwapA [])

/-- C4: when every face adjustment is zero, `buildFaceControlPoints`
returns the empty list for every landmark set, and `applyFaceWarp` with
an empty control-point list returns the input buffer unchanged. -/
theorem build_zero_adjustments (adj : FaceAdjustments)
    (h1 : adj.smallFace = 0) (h2 : adj.slimJaw = 0) (h3 : adj.chinLength = 0)
    (h4 : adj.eyeSize = 0) (h5 : adj.eyeWidth = 0) (h6 : adj.noseSlim = 0)
    (h7 : adj.noseTip = 0) (h8 : adj.lipThickness = 0) (h9 : adj.mouthCorner = 0)
    (h10 : adj.mouthWidth = 0) (h11 : adj.midFaceShorten = 0)
    (h12 : adj.jawlineSmooth = 0) :
    (∀ lm, buildFaceControlPoints lm adj = []) ∧
    (∀ img, applyFaceWarp img [] = img) := by
  refine ⟨fun lm => ?_, fun img => by simp [applyFaceWarp]⟩
  by_cases hlen : lm.length < 400
  · simp [buildFaceControlPoints, hlen]
  · simp only [buildFaceControlPoints, if_neg hlen]
    cases hfr : faceFrame? lm with
    | none => rfl
    | some fr =>
        simp [smallFaceCPs, slimJawCPs, chinLengthCPs, eyeSizeCPs, eyeWidthCPs,
          noseSlimCPs, noseTipCPs, lipThicknessCPs, mouthCornerCPs, mouthWidthCPs,
          midFaceShortenCPs, jawlineSmoothCPs, h1, h2, h3, h4, h5, h6, h7, h8, h9,
          h10, h11, h12]

/-- C4 witness: the all-zero adjustment set on a concrete landmark list
yields no control points, and the empty warp leaves a concrete image
untouched. -/
theorem build_zero_adjustments_witness :
    buildFaceControlPoints [] ⟨0, 0, 0, 0, 0, 0, 0, 0, 0, 0, 0, 0⟩ = [] ∧
    applyFaceWarp ⟨2, 2, fun _ => 5⟩ [] = ⟨2, 2, fun _ => 5⟩ := by
  have h := build_zero_adjustments ⟨0, 0, 0, 0, 0, 0, 0, 0, 0, 0, 0, 0⟩
    rfl rfl rfl rfl rfl rfl rfl rfl rfl rfl rfl rfl
  exact ⟨h.1 [], h.2 ⟨2, 2, fun _ => 5⟩⟩

/-- A `restore` stroke multiplies each cell of both grids by
`1 - strokeWeight` (which is `1` outside the brush). -/
theorem restore_mul_one_sub_weight (dxF dyF : ℕ → ℝ) (width height : ℕ)
    (cx cy dx dy radius strength : ℝ) (idx : ℕ) :
    (addLiquifyStroke dxF dyF width height cx cy dx dy radius strength .restore).1 idx
      = dxF idx * (1 - strokeWeight width height cx cy radius strength idx) ∧
    (addLiquifyStroke dxF dyF width height cx cy dx dy radius strength .restore).2 idx
      = dyF idx * (1 - strokeWeight width height cx cy radius strength idx) := by
  unfold addLiquifyStroke strokeWeight strokeCellUpdate
  constructor <;> simp only [] <;> split <;> ring

/-- C7: with per-cell weight `w = strokeWeight …` satisfying
`0 ≤ w < 1`, a restore stroke multiplies the stored dx and dy values by
`(1 - w)`; iterating it gives geometric decay `v·(1-w)^n`, which is
monotonically non-increasing in absolute value, never flips the sign of
a field value, and (when the cell actually receives weight `w > 0`)
converges to zero. -/
theorem restore_decay (dxF dyF : ℕ → ℝ) (width height : ℕ)
    (cx cy dx dy radius strength : ℝ) (idx : ℕ)
    (hw0 : 0 ≤ strokeWeight width height cx cy radius strength idx)
    (hw1 : strokeWeight width height cx cy radius strength idx < 1) :
    (∀ n : ℕ,
      ((restoreIter width height cx cy dx dy radius strength)^[n] (dxF, dyF)).1 idx
        = dxF idx * (1 - strokeWeight width height cx cy radius strength idx) ^ n ∧
      ((restoreIter width height cx cy dx dy radius strength)^[n] (dxF, dyF)).2 idx
        = dyF idx * (1 - strokeWeight width height cx cy radius strength idx) ^ n) ∧
    (∀ n : ℕ,
      |((restoreIter width height cx cy dx dy radius strength)^[n + 1] (dxF, dyF)).1 idx|
        ≤ |((restoreIter width height cx cy dx dy radius strength)^[n] (dxF, dyF)).1 idx| ∧
      |((restoreIter width height cx cy dx dy radius strength)^[n + 1] (dxF, dyF)).2 idx|
        ≤ |((restoreIter width height cx cy dx dy radius strength)^[n] (dxF, dyF)).2 idx|) ∧
    (∀ n : ℕ,
      0 ≤ dxF idx *
        ((restoreIter width height cx cy dx dy radius strength)^[n] (dxF, dyF)).1 idx ∧
      0 ≤ dyF idx *
        ((restoreIter width height cx cy dx dy radius strength)^[n] (dxF, dyF)).2 idx) ∧
    (0 < strokeWeight width height cx cy radius strength idx →
      Tendsto (fun n : ℕ =>
          ((restoreIter width height cx cy dx dy radius strength)^[n] (dxF, dyF)).1 idx)
        atTop (nhds 0) ∧
      Tendsto (fun n : ℕ =>
          ((restoreIter width height cx cy dx dy radius strength)^[n] (dxF, dyF)).2 idx)
        atTop (nhds 0)) := by
  set w := strokeWeight width height cx cy radius strength idx with hw
  have hpos : 0 < 1 - w := by linarith
  have hle1 : 1 - w ≤ 1 := by linarith
  have hiter : ∀ n : ℕ,
      ((restoreIter width height cx cy dx dy radius strength)^[n] (dxF, dyF)).1 idx
        = dxF idx * (1 - w) ^ n ∧
      ((restoreIter width height cx cy dx dy radius strength)^[n] (dxF, dyF)).2 idx
        = dyF idx * (1 - w) ^ n := by
    intro n
    induction n with
    | zero => simp
    | succ k ih =>
        rw [Function.iterate_succ_apply']
        have h := restore_mul_one_sub_weight
          ((restoreIter width height cx cy dx dy radius strength)^[k] (dxF, dyF)).1
          ((restoreIter width height cx cy dx dy radius strength)^[k] (dxF, dyF)).2
          width height cx cy dx dy radius strength idx
        constructor
        · rw [show (restoreIter width height cx cy dx dy radius strength
              ((restoreIter width height cx cy dx dy radius strength)^[k] (dxF, dyF)))
              = addLiquifyStroke
                  ((restoreIter width height cx cy dx dy radius strength)^[k] (dxF, dyF)).1
                  ((restoreIter width height cx cy dx dy radius strength)^[k] (dxF, dyF)).2
                  width height cx cy dx dy radius strength .restore from rfl,
            h.1, ih.1, ← hw]
          ring
        · rw [show (restoreIter width height cx cy dx dy radius strength
              ((restoreIter width height cx cy dx dy radius strength)^[k] (dxF, dyF)))
              = addLiquifyStroke
                  ((restoreIter width height cx cy dx dy radius strength)^[k] (dxF, dyF)).1
                  ((restoreIter width height cx cy dx dy radius strength)^[k] (dxF, dyF)).2
                  width height cx cy dx dy radius strength .restore from rfl,
            h.2, ih.2, ← hw]
          ring
  refine ⟨hiter, fun n => ?_, fun n => ?_, fun hwpos => ?_⟩
  · rw [(hiter (n + 1)).1, (hiter (n + 1)).2, (hiter n).1, (hiter n).2]
    constructor <;>
    · rw [pow_succ, ← mul_assoc, abs_mul, abs_of_pos hpos]
      exact mul_le_of_le_one_right (abs_nonneg _) hle1
  · rw [(hiter n).1, (hiter n).2]
    constructor <;>
    · rw [← mul_assoc]
      exact mul_nonneg (mul_self_nonneg _) (pow_nonneg (by linarith) n)
  · have hlim : Tendsto (fun n : ℕ => (1 - w) ^ n) atTop (nhds 0) :=
      tendsto_pow_atTop_nhds_zero_of_lt_one (by linarith) (by linarith)
    constructor
    · have := hlim.const_mul (dxF idx)
      rw [mul_zero] at this
      refine this.congr fun n => ((hiter n).1).symm
    · have := hlim.const_mul (dyF idx)
      rw [mul_zero] at this
      refine this.congr fun n => ((hiter n).2).symm

/-- The C7 witness's concrete in-brush weight: brush at the origin with
radius 2 and strength 50 gives the centre cell weight `exp 0 · ½ = ½`. -/
theorem strokeWeight_witness_value : strokeWeight 4 4 0 0 2 50 0 = 1 / 2 := by
  unfold strokeWeight
  dsimp only
  split
  next h => norm_num [pxOf, pyOf, Real.exp_zero]
  next h =>
    exfalso
    apply h
    refine ⟨max_le le_rfl (Int.floor_nonpos (by norm_num)),
      le_min (by norm_num [pxOf]) (Int.ceil_nonneg (by norm_num)),
      max_le le_rfl (Int.floor_nonpos (by norm_num)),
      le_min (by norm_num [pyOf]) (Int.ceil_nonneg (by norm_num)), ?_⟩
    norm_num [pxOf, pyOf]

/-- C7 witness: a concrete restore stroke at a concrete in-brush cell,
weight ½, applied twice. -/
theorem restore_decay_witness :
    0 ≤ strokeWeight 4 4 0 0 2 50 0 ∧ strokeWeight 4 4 0 0 2 50 0 < 1 ∧
    ((restoreIter 4 4 0 0 0 0 2 50)^[2] ((fun _ => (3 : ℝ)), fun _ => 4)).1 0
      = 3 * (1 - strokeWeight 4 4 0 0 2 50 0) ^ 2 := by
  have h := restore_decay (fun _ => (3 : ℝ)) (fun _ => 4) 4 4 0 0 0 0 2 50 0
    (by rw [strokeWeight_witness_value]; norm_num)
    (by rw [strokeWeight_witness_value]; norm_num)
  exact ⟨by rw [strokeWeight_witness_value]; norm_num,
    by rw [strokeWeight_witness_value]; norm_num, (h.1 2).1⟩

/-- Storing an in-range byte value through the `Uint8ClampedArray` write
is the identity. -/
theorem u8storeQ_byte (n : ℕ) (hn : n ≤ 255) : u8storeQ (n : ℚ) = n := by
  unfold u8storeQ roundHalfEvenQ
  rcases Nat.eq_zero_or_pos n with h0 | h0
  · subst h0; norm_num
  · rw [if_neg (by push_neg; exact_mod_cast h0)]
    by_cases h255 : (255 : ℚ) ≤ (n : ℚ)
    · have hn' : n = 255 := le_antisymm hn (by exact_mod_cast h255)
      subst hn'
      norm_num
    · rw [if_neg h255]
      dsimp only
      rw [Int.floor_natCast]
      norm_num

/-- The C1 counterexample's source buffer: pixel 0 has channel value 10,
pixel 1 has channel value 200. -/
def cexSrc : ℕ → ℚ := fun i => if i < 4 then 10 else 200

/-- The C1 counterexample's dy grid: 1 at cell 0, zero elsewhere (the dx
grid is identically zero). -/
def cexDY : ℕ → ℚ := fun i => if i = 0 then 1 else 0

/-- C1 counterexample: on a 1×2 image with a displacement field that is
zero in the sampled `dx` slots but non-zero in `dy`, the presence check
skips the liquify stage (output keeps 10 at slot 0) while always
applying the stage yields 200 there — the check changes the rendered
output on a field that is not entirely zero. -/
theorem presence_check_not_pure_cex :
    cexDY 0 ≠ 0 ∧
    hasLiquifyCheck (fun _ => 0) (1 * 2) = false ∧
    liquifyStageChecked cexSrc (fun _ => 0) cexDY 1 2 0 = 10 ∧
    applyLiquifyIntoFresh cexSrc (fun _ => 0) cexDY 1 2 0 = 200 := by
  refine ⟨by norm_num [cexDY], ?_, ?_, ?_⟩
  · norm_num [hasLiquifyCheck, sampledAny, List.range_succ]
  · norm_num [liquifyStageChecked, hasLiquifyCheck, sampledAny, List.range_succ, cexSrc]
  · norm_num [applyLiquifyIntoFresh, cexSrc, cexDY, u8storeQ, roundHalfEvenQ]

/-- C1 amended: the presence check fires exactly when some sampled slot
of the `dx` grid is non-zero; for an entirely-zero field, both the
skipped and the always-applied stage return the source buffer unchanged
(the optimisation is sound there); but a field that is zero at the
sampled slots is skipped even when it is non-zero elsewhere (see the
counterexample), so the check is not output-preserving in general. -/
theorem presence_check_amended (src dxF dyF : ℕ → ℚ) (width height : ℕ)
    (hdx : ∀ i, i < width * height → dxF i = 0)
    (hdy : ∀ i, i < width * height → dyF i = 0)
    (hsrc : ∀ i, i < width * height * 4 → ∃ n : ℕ, n ≤ 255 ∧ src i = n) :
    hasLiquifyCheck dxF (width * height) = false ∧
    (∀ i, i < width * height * 4 →
      applyLiquifyIntoFresh src dxF dyF width height i = src i) ∧
    (∀ i, i < width * height * 4 →
      liquifyStageChecked src dxF dyF width height i = src i) ∧
    (∀ g : ℕ → ℚ, ∀ len,
      hasLiquifyCheck g len = false ↔ ∀ k, 500 * k < len → g (500 * k) = 0) := by
  have hchar : ∀ g : ℕ → ℚ, ∀ len,
      hasLiquifyCheck g len = false ↔ ∀ k, 500 * k < len → g (500 * k) = 0 := by
    intro g len
    unfold hasLiquifyCheck sampledAny
    rw [List.any_eq_false]
    constructor
    · intro hall k hk
      have hmem : k ∈ List.range ((len + 500 - 1) / 500) := List.mem_range.mpr (by omega)
      simpa using hall k hmem
    · intro hall k hk
      have hklt := List.mem_range.mp hk
      simp only [decide_eq_true_eq, Decidable.not_not]
      exact hall k (by omega)
  have hcheck : hasLiquifyCheck dxF (width * height) = false :=
    (hchar dxF (width * height)).mpr fun k hk => hdx _ hk
  have hid : ∀ i, i < width * height * 4 →
      applyLiquifyIntoFresh src dxF dyF width height i = src i := by
    intro i hi
    have hw : 0 < width := by
      rcases Nat.eq_zero_or_pos width with h0 | h0
      · subst h0; simp at hi
      · exact h0
    have hh : 0 < height := by
      rcases Nat.eq_zero_or_pos height with h0 | h0
      · subst h0; simp at hi
      · exact h0
    have hidx : i / 4 < width * height := by omega
    have hxlt : i / 4 % width < width := Nat.mod_lt _ hw
    have hylt : i / 4 / width < height := by
      rw [Nat.div_lt_iff_lt_mul hw]
      rw [Nat.mul_comm] at hidx
      exact hidx
    have hx0 : ¬ ((i / 4 % width : ℕ) : ℤ) < 0 := not_lt.mpr (Int.natCast_nonneg _)
    have hx1 : ¬ ((width : ℕ) : ℤ) ≤ ((i / 4 % width : ℕ) : ℤ) :=
      not_le.mpr (by exact_mod_cast hxlt)
    have hy0 : ¬ ((i / 4 / width : ℕ) : ℤ) < 0 := not_lt.mpr (Int.natCast_nonneg _)
    have hy1 : ¬ ((height : ℕ) : ℤ) ≤ ((i / 4 / width : ℕ) : ℤ) :=
      not_le.mpr (by exact_mod_cast hylt)
    unfold applyLiquifyIntoFresh
    rw [if_pos hi]
    dsimp only
    rw [hdx _ hidx, hdy _ hidx]
    simp only [add_zero, Int.floor_natCast, Int.cast_natCast, sub_self]
    rw [if_neg hx0, if_neg hx1, if_neg hy0, if_neg hy1]
    simp only [sub_zero, mul_one, one_mul, mul_zero, zero_mul, add_zero]
    rw [if_neg ?hor]
    case hor =>
      push_neg
      constructor <;> split <;> omega
    have h1 : width * (i / 4 / width) + i / 4 % width = i / 4 := Nat.div_add_mod (i / 4) width
    have h2 : (((i / 4 / width : ℕ) : ℤ) * ((width : ℕ) : ℤ) + ((i / 4 % width : ℕ) : ℤ)) * 4
        = (((i / 4 / width * width + i / 4 % width) * 4 : ℕ) : ℤ) := by push_cast; ring
    rw [h2, Int.toNat_natCast]
    have h3 : (i / 4 / width * width + i / 4 % width) * 4 + i % 4 = i := by
      have h4 : i / 4 / width * width + i / 4 % width = i / 4 := by
        rw [Nat.mul_comm] at h1
        omega
      rw [h4]
      omega
    rw [h3]
    obtain ⟨n, hn, hsn⟩ := hsrc i hi
    rw [hsn, u8storeQ_byte n hn]
  refine ⟨hcheck, hid, fun i hi => ?_, hchar⟩
  unfold liquifyStageChecked
  rw [hcheck]
  simp

/-- C1 witness: a concrete 1×1 image with an all-zero field — the check
skips, and always-applying is the identity. -/
theorem presence_check_amended_witness :
    hasLiquifyCheck (fun _ => (0 : ℚ)) (1 * 1) = false ∧
    applyLiquifyIntoFresh (fun _ => 7) (fun _ => 0) (fun _ => 0) 1 1 0 = 7 := by
  have h := presence_check_amended (fun _ => 7) (fun _ => 0) (fun _ => 0) 1 1
    (fun i _ => rfl) (fun i _ => rfl) (fun i _ => ⟨7, by norm_num, by norm_num⟩)
  exact ⟨h.1, h.2.1 0 (by norm_num)⟩

/-- `get?` on a replicated list. -/
theorem get?_replicate {α : Type} (a : α) (n m : ℕ) :
    (List.replicate n a).get? m = if m < n then some a else none := by
  induction n generalizing m with
  | zero => simp
  | succ k ih =>
      cases m with
      | zero => simp [List.replicate]
      | succ m' => simpa [List.replicate, Nat.succ_lt_succ_iff] using ih m'

/-- Origin landmark used by the synthetic landmark lists. -/
noncomputable def lmO : FaceLandmark := ⟨0, 0, 0⟩

/-- Forehead landmark used by the synthetic landmark lists. -/
noncomputable def lmF : FaceLandmark := ⟨0, 100, 0⟩

/-- Synthetic landmark list of length `n + 11`: index 10 (the forehead)
is at (0, 100), every other index at the origin — a non-degenerate
frame (chin-to-forehead distance 100). -/
noncomputable def mkLm (n : ℕ) : List FaceLandmark :=
  List.replicate 10 lmO ++ lmF :: List.replicate n lmO

/-- Length of the synthetic landmark list. -/
theorem mkLm_length (n : ℕ) : (mkLm n).length = n + 11 := by
  simp [mkLm]

/-- Index 10 of the synthetic list is the forehead. -/
theorem mkLm_get?_10 (n : ℕ) : (mkLm n).get? 10 = some lmF := by
  unfold mkLm
  rw [List.get?_append_right (by simp)]
  simp

/-- Every index of the synthetic list past 10 (and in range) is the
origin landmark. -/
theorem mkLm_get?_of_ge (n m : ℕ) (h10 : 10 < m) (hm : m < n + 11) :
    (mkLm n).get? m = some lmO := by
  unfold mkLm
  rw [List.get?_append_right (by simp; omega)]
  have hsub : m - (List.replicate 10 lmO).length = (m - 11) + 1 := by simp; omega
  rw [hsub]
  simp only [List.get?_cons_succ]
  rw [get?_replicate, if_pos (by omega)]

/-- The synthetic list yields a (non-degenerate) face frame whenever the
chin index 152 is in range. -/
theorem faceFrame_mkLm (n : ℕ) (hn : 141 < n) :
    ∃ fr, faceFrame? (mkLm n) = some fr := by
  unfold faceFrame?
  rw [mkLm_get?_of_ge n 152 (by omega) (by omega), mkLm_get?_10 n]
  dsimp only
  have hsqrt : Real.sqrt ((lmF.x - lmO.x) ^ 2 + (lmF.y - lmO.y) ^ 2) = 100 := by
    simp only [lmF, lmO]
    rw [show ((0 : ℝ) - 0) ^ 2 + (100 - 0) ^ 2 = 100 ^ 2 by norm_num]
    rw [Real.sqrt_sq (by norm_num)]
  rw [if_neg (by rw [hsqrt]; norm_num)]
  exact ⟨_, rfl⟩

/-- The adjustment set with only `smallFace` set (to 50). -/
noncomputable def adjSmallOnly : FaceAdjustments := ⟨50, 0, 0, 0, 0, 0, 0, 0, 0, 0, 0, 0⟩

/-- `getElem?` version of `mkLm_get?_of_ge`, for `simp`. -/
theorem mkLm_getElem?_of_ge (n m : ℕ) (h10 : 10 < m) (hm : m < n + 11) :
    (mkLm n)[m]? = some lmO := by
  rw [← List.get?_eq_getElem?]
  exact mkLm_get?_of_ge n m h10 hm

/-- On the synthetic list (long enough for jaw index 356), the
small-face rule produces at least one control point. -/
theorem smallFaceCPs_mkLm_ne (n : ℕ) (hn : 345 < n) (fr : FaceFrame) :
    smallFaceCPs (mkLm n) adjSmallOnly fr ≠ [] := by
  unfold smallFaceCPs
  rw [if_pos (by norm_num [adjSmallOnly])]
  simp [LM_JAW, List.filterMap_cons, mkLm_getElem?_of_ge n 356 (by omega) (by omega)]

/-- With `smallFace = 50`, the builder returns a nonempty control-point
list on the synthetic landmark list as soon as it has at least 400
entries. -/
theorem build_mkLm_ne (n : ℕ) (hn : 389 ≤ n) :
    buildFaceControlPoints (mkLm n) adjSmallOnly ≠ [] := by
  unfold buildFaceControlPoints
  rw [if_neg (by rw [mkLm_length]; omega)]
  obtain ⟨fr, hfr⟩ := faceFrame_mkLm n (by omega)
  rw [hfr]
  intro hcontra
  simp only [List.append_eq_nil] at hcontra
  exact smallFaceCPs_mkLm_ne n (by omega) fr
    hcontra.1.1.1.1.1.1.1.1.1.1.1

/-- A 400-point synthetic landmark list. -/
noncomputable def lm400 : List FaceLandmark := mkLm 389

/-- A 401-point synthetic landmark list. -/
noncomputable def lm401 : List FaceLandmark := mkLm 390

/-- A concrete 8×8 grey image. -/
noncomputable def imgGray : ImageDataM := ⟨8, 8, fun _ => 128⟩

/-- C2 counterexample: a non-degenerate landmark sequence of exactly 400
points, with a non-zero face adjustment, is accepted by the
control-point builder (nonempty result) yet both compositors skip the
face-warp stage entirely (their guard requires strictly more than 400
points) — so it is treated as "no landmarks" by the compositors even
though it does not have fewer than 400 points. -/
theorem faceWarp_threshold_cex :
    lm400.length = 400 ∧ ¬ lm400.length < 400 ∧
    buildFaceControlPoints lm400 adjSmallOnly ≠ [] ∧
    displayFaceStage (some lm400) adjSmallOnly imgGray = imgGray ∧
    fullresFaceStage (some lm400) adjSmallOnly 2 imgGray = imgGray := by
  have hlen : lm400.length = 400 := by rw [lm400, mkLm_length]
  refine ⟨hlen, by omega, build_mkLm_ne 389 le_rfl, ?_, ?_⟩
  · unfold displayFaceStage
    dsimp only
    rw [if_neg (by omega)]
  · unfold fullresFaceStage
    dsimp only
    rw [if_neg (by omega)]

/-- C2 amended: the builder returns the empty list for every sequence
with fewer than 400 points; both compositors skip the face-warp stage
for every sequence with at most 400 points (they require strictly more
than 400), and for a sequence with more than 400 points the display
stage applies the warp built from it; with `smallFace = 50` a
401-point non-degenerate sequence does produce control points and a
face warp. -/
theorem faceWarp_threshold_amended :
    (∀ lm adj, lm.length < 400 → buildFaceControlPoints lm adj = []) ∧
    (∀ (lms : List FaceLandmark) (adj : FaceAdjustments) (img : ImageDataM),
      lms.length ≤ 400 → displayFaceStage (some lms) adj img = img) ∧
    (∀ (lms : List FaceLandmark) (adj : FaceAdjustments) (upScale : ℝ)
        (img : ImageDataM),
      lms.length ≤ 400 → fullresFaceStage (some lms) adj upScale img = img) ∧
    (∀ (adj : FaceAdjustments) (img : ImageDataM),
      displayFaceStage none adj img = img) ∧
    buildFaceControlPoints lm401 adjSmallOnly ≠ [] ∧
    (∀ img : ImageDataM,
      displayFaceStage (some lm401) adjSmallOnly img =
        applyFaceWarp img (buildFaceControlPoints lm401 adjSmallOnly)) := by
  refine ⟨?_, ?_, ?_, fun adj img => rfl, build_mkLm_ne 390 (by omega), ?_⟩
  · intro lm adj h
    simp [buildFaceControlPoints, h]
  · intro lms adj img h
    unfold displayFaceStage
    dsimp only
    rw [if_neg (by omega)]
  · intro lms adj upScale img h
    unfold fullresFaceStage
    dsimp only
    rw [if_neg (by omega)]
  · intro img
    have hlen : lm401.length = 401 := by rw [lm401, mkLm_length]
    unfold displayFaceStage
    dsimp only
    rw [if_pos (by omega)]
    rw [if_pos (List.length_pos.mpr
      (show buildFaceControlPoints lm401 adjSmallOnly ≠ [] from
        build_mkLm_ne 390 (by omega)))]

/-- C2 witness for the amended theorem: the empty landmark list is
rejected by the builder and skipped by the display compositor. -/
theorem faceWarp_threshold_amended_witness :
    buildFaceControlPoints [] adjSmallOnly = [] ∧
    displayFaceStage (some []) adjSmallOnly imgGray = imgGray :=
  ⟨faceWarp_threshold_amended.1 [] adjSmallOnly (by simp),
   faceWarp_threshold_amended.2.1 [] adjSmallOnly imgGray (by simp)⟩
